import Mathlib

/-!
Shallow embedding of the squirrel storage engine (a SQLite-backed blob
cache) and proofs about its documented behaviour.  The definitions below
are translated from the Go source: `initConn`, `InitSchema`/`initDatabase`,
`createKey`, `openKey`, `iterBlobs`, `accessedKey` (sqlite-related file) and
`PinnedBlob.Reopen` (pinned-blob.go).  SQLite itself is an external
dependency: engine-level outcomes (pragma replies, BUSY results, blob
reopen failures) enter the model as explicit oracle parameters, and table
contents are modelled as lists of rows.
-/

namespace Squirrel

/-- Go error values that the modelled code creates or compares against.
Distinct constructors model distinct Go error values: `notFound` is the
package sentinel `ErrNotFound` returned by `openKey`;
`rowidForNameNotFound` is the fresh error created by
`errors.New ("rowid for name not found")` in `PinnedBlob.Reopen`, which is a
different Go error value from `ErrNotFound`; `unexpectedJournalMode` is
`ErrUnexpectedJournalMode`; `busy` is an engine error whose result code is
`SQLITE_BUSY`; `other` covers remaining engine/IO errors. -/
inductive GoErr where
  | notFound
  | rowidForNameNotFound
  | unexpectedJournalMode (actual : String)
  | busy
  | other (msg : String)
deriving DecidableEq, Repr

/-! ## Database initialisation (`initDatabase`, claim C1) -/

/-- `InitDbOpts` fields used by `initDatabase`. -/
structure InitDbOpts where
  SetAutoVacuum : Option String
  RequireAutoVacuum : Option String
  DontInitSchema : Bool
  NoTriggers : Bool
  PageSize : Int
  Capacity : Int
deriving DecidableEq, Repr

/-- The state of the database file that `initDatabase` touches: the
`setting` table (name/value rows), the `auto_vacuum` pragma value, and
whether the schema and trigger scripts have been executed. -/
structure DbFile where
  setting : List (String × Int)
  autoVacuum : String
  schemaInit : Bool
  triggersInit : Bool
deriving DecidableEq, Repr

/-- `unlimitCapacity`: `delete from setting where name='capacity'`. -/
def unlimitCapacity (s : List (String × Int)) : List (String × Int) :=
  s.filter fun r => ¬ r.1 = "capacity"

/-- `setCapacity`: `insert into setting values ('capacity', ?)`.
Modelled from the spec: the schema file init.sql is not under src/; per
spec section 3 the `setting` table keeps singleton-style rows per name, and
sections 4.2 and 6 describe the positive-capacity write as an upsert, so an
insert whose name already exists replaces the existing row. -/
def setCapacity (s : List (String × Int)) (cap : Int) : List (String × Int) :=
  s.filter (fun r => ¬ r.1 = "capacity") ++ [("capacity", cap)]

/-- The `auto_vacuum` part of `initDatabase`: `setAndMaybeVerifyPragma`
when `SetAutoVacuum` is present (verifying the read-back value against
`RequireAutoVacuum` when that is present), otherwise a verify-only read of
the pragma against `RequireAutoVacuum`.  `setAndMaybeVerifyPragma` is not
under src/ and is modelled from the spec (section 4.2: optional
`auto_vacuum` set-and-verify, then verify-only `RequireAutoVacuum`); the
engine is idealised so that setting the pragma succeeds and reads back the
value just set. -/
def autoVacuumStep (opts : InitDbOpts) (db : DbFile) : Except GoErr DbFile :=
  match opts.SetAutoVacuum with
  | some v =>
    match opts.RequireAutoVacuum with
    | some req =>
      if v = req then .ok { db with autoVacuum := v }
      else .error (.other "auto_vacuum verify failed")
    | none => .ok { db with autoVacuum := v }
  | none =>
    match opts.RequireAutoVacuum with
    | some req =>
      if db.autoVacuum = req then .ok db
      else .error (.other "auto_vacuum mismatch")
    | none => .ok db

/-- The `InitSchema` part of `initDatabase`: unless `DontInitSchema`, run
the schema script and (unless `NoTriggers`) the trigger script inside an
immediate transaction.  The scripts create tables and triggers; they do not
touch `setting` rows. -/
def schemaStep (opts : InitDbOpts) (db : DbFile) : DbFile :=
  if ¬ opts.DontInitSchema then
    { db with schemaInit := true, triggersInit := ¬ opts.NoTriggers }
  else db

/-- The capacity directive at the end of `initDatabase`:
negative capacity deletes the row, positive capacity writes it, zero leaves
the table untouched. -/
def capacityStep (opts : InitDbOpts) (db : DbFile) : DbFile :=
  if opts.Capacity < 0 then { db with setting := unlimitCapacity db.setting }
  else if opts.Capacity > 0 then { db with setting := setCapacity db.setting opts.Capacity }
  else db

/-- `initDatabase(conn, opts)`: auto-vacuum handling, then optional schema
initialisation, then the capacity directive. -/
def initDatabase (opts : InitDbOpts) (db : DbFile) : Except GoErr DbFile :=
  match autoVacuumStep opts db with
  | .error e => .error e
  | .ok db1 => .ok (capacityStep opts (schemaStep opts db1))

theorem autoVacuumStep_setting {opts : InitDbOpts} {db db1 : DbFile}
    (h : autoVacuumStep opts db = .ok db1) : db1.setting = db.setting := by
  unfold autoVacuumStep at h
  repeat' split at h
  all_goals cases h
  all_goals rfl

theorem schemaStep_setting (opts : InitDbOpts) (db : DbFile) :
    (schemaStep opts db).setting = db.setting := by
  unfold schemaStep
  split <;> rfl

/-- C1: for every `InitDbOpts`, `initDatabase` applies the capacity
directive as follows: a negative `Capacity` deletes the `capacity` row from
`setting` (unbounded); a positive `Capacity` upserts the `capacity` row so
that afterwards exactly one row `("capacity", Capacity)` exists, whether or
not a capacity row already existed; a zero `Capacity` leaves the `setting`
table untouched. -/
theorem initDatabase_capacity_directive (opts : InitDbOpts) (db db' : DbFile)
    (h : initDatabase opts db = .ok db') :
    (opts.Capacity < 0 →
      db'.setting = db.setting.filter fun r => ¬ r.1 = "capacity") ∧
    (opts.Capacity > 0 →
      db'.setting.filter (fun r => r.1 = "capacity") = [("capacity", opts.Capacity)]) ∧
    (opts.Capacity = 0 → db'.setting = db.setting) := by
  unfold initDatabase at h
  cases hav : autoVacuumStep opts db with
  | error e => rw [hav] at h; cases h
  | ok db1 =>
    rw [hav] at h
    have hset : (schemaStep opts db1).setting = db.setting := by
      rw [schemaStep_setting, autoVacuumStep_setting hav]
    cases h
    refine ⟨?_, ?_, ?_⟩
    · intro hneg
      unfold capacityStep unlimitCapacity
      simp only [hneg, if_pos]
      rw [hset]
    · intro hpos
      have hnn : ¬ opts.Capacity < 0 := by omega
      unfold capacityStep setCapacity
      simp only [hnn, if_neg, if_pos hpos, ite_false]
      rw [List.filter_append]
      have h1 : List.filter (fun r => decide (r.1 = "capacity"))
          (List.filter (fun r => decide (¬ r.1 = "capacity")) (schemaStep opts db1).setting)
          = [] := by
        rw [List.filter_filter]
        apply List.filter_eq_nil_iff.mpr
        intro a _
        simp
      rw [h1]
      simp
    · intro hzero
      unfold capacityStep
      have h1 : ¬ opts.Capacity < 0 := by omega
      have h2 : ¬ opts.Capacity > 0 := by omega
      simp only [h1, h2, if_neg, ite_false]
      exact hset

/-- Concrete inputs for the C1 witness. -/
def initDbOptsW : InitDbOpts :=
  { SetAutoVacuum := none, RequireAutoVacuum := none, DontInitSchema := false,
    NoTriggers := false, PageSize := 0, Capacity := 5 }

/-- A database file that already has a capacity row, for the C1 witness. -/
def dbFileW : DbFile :=
  { setting := [("capacity", 3), ("x", 1)], autoVacuum := "none",
    schemaInit := false, triggersInit := false }

/-- The result of `initDatabase initDbOptsW dbFileW`, for the C1 witness. -/
def dbFileW' : DbFile :=
  { setting := [("x", 1), ("capacity", 5)], autoVacuum := "none",
    schemaInit := true, triggersInit := true }

/-- Witness for C1: with capacity 5 requested over a file that already has
a capacity row of 3, the resulting setting table has exactly one
capacity row, carrying 5. -/
theorem initDatabase_capacity_directive_witness :
    dbFileW'.setting.filter (fun r => r.1 = "capacity") = [("capacity", 5)] :=
  (initDatabase_capacity_directive initDbOptsW dbFileW dbFileW' (by rfl)).2.1 (by decide)

/-! ## Connection initialisation (`initConn`, claim C6) -/

/-- A specified-or-absent int64, mirroring the Go optional used for
`CacheSize`. -/
structure OptionalInt64 where
  Ok : Bool
  Value : Int
deriving DecidableEq, Repr

/-- `InitConnOpts` fields used by `initConn`. -/
structure InitConnOpts where
  SetSynchronous : Int
  SetJournalMode : String
  SetLockingMode : String
  MmapSizeOk : Bool
  MmapSize : Int
  CacheSize : OptionalInt64
deriving DecidableEq, Repr

/-- An oracle for the engine-level outcome of each pragma statement
`initConn` issues, in source order.  A `none` outcome means the statement
(and, for set-and-verify pragmas, its verification) succeeded.
`journalModeReply` gives, for the requested journal mode, either an engine
error or the mode string the `journal_mode` pragma returned (the pragma
always returns the resulting mode). -/
structure ConnEngine where
  synchronousErr : Option GoErr
  recursiveTriggersErr : Option GoErr
  pageSizeErr : Option GoErr
  journalModeReply : String → Except GoErr String
  lockingErr : Option GoErr
  mmapErr : Option GoErr
  cacheSizeErr : Option GoErr

/-- Turns an oracle outcome into an `Except` step. -/
def stepOf (o : Option GoErr) : Except GoErr Unit :=
  match o with
  | some e => .error e
  | none => .ok ()

/-- The tail of `initConn` after the journal-mode block: locking mode if
requested, the `MmapSizeOk` defaulting followed by `mmap_size` when the
resulting size is non-negative, then `cache_size` when specified. -/
def initConnAfterJournal (opts : InitConnOpts) (eng : ConnEngine) : Except GoErr Unit := do
  if ¬ opts.SetLockingMode = "" then stepOf eng.lockingErr
  let mmapSize : Int := if ¬ opts.MmapSizeOk then -1 else opts.MmapSize
  if mmapSize ≥ 0 then stepOf eng.mmapErr
  if opts.CacheSize.Ok then stepOf eng.cacheSizeErr

/-- `initConn(conn, opts, pageSize)`: synchronous, recursive triggers,
page size (skipped when zero, per `setPageSize`), then the journal-mode
set-and-verify-exact block, then the remaining pragma steps
(`initConnAfterJournal`).  `setSynchronous` and `setAndVerifyPragma` are
not under src/; their engine-level outcomes are supplied by the oracle. -/
def initConn (opts : InitConnOpts) (eng : ConnEngine) (pageSize : Int) : Except GoErr Unit := do
  stepOf eng.synchronousErr
  stepOf eng.recursiveTriggersErr
  if ¬ pageSize = 0 then stepOf eng.pageSizeErr
  if ¬ opts.SetJournalMode = "" then
    match eng.journalModeReply opts.SetJournalMode with
    | .error e => throw e
    | .ok journalMode =>
      if ¬ journalMode = opts.SetJournalMode then
        throw (.unexpectedJournalMode journalMode)
      else pure ()
  initConnAfterJournal opts eng

/-- C6: with a non-empty `SetJournalMode`, once the earlier steps succeed,
`initConn` runs the `journal_mode` pragma and compares the mode the engine
returns with the requested one; on a mismatch it fails with
`unexpectedJournalMode` carrying the actual returned mode, and on a match
it proceeds to the remaining pragma steps (`initConnAfterJournal`). -/
theorem initConn_journal_mode_verify (opts : InitConnOpts) (eng : ConnEngine)
    (pageSize : Int) (actual : String)
    (hs : eng.synchronousErr = none) (hr : eng.recursiveTriggersErr = none)
    (hp : pageSize = 0 ∨ eng.pageSizeErr = none)
    (hjm : ¬ opts.SetJournalMode = "")
    (hreply : eng.journalModeReply opts.SetJournalMode = .ok actual) :
    (¬ actual = opts.SetJournalMode →
      initConn opts eng pageSize = .error (.unexpectedJournalMode actual)) ∧
    (actual = opts.SetJournalMode →
      initConn opts eng pageSize = initConnAfterJournal opts eng) := by
  constructor
  · intro hne
    rcases hp with hp | hp
    · simp [initConn, hs, hr, hp, stepOf, hjm, hreply, hne, throw, throwThe,
        MonadExceptOf.throw, pure, Except.pure, bind, Except.bind]
    · by_cases hz : pageSize = 0 <;>
        simp [initConn, hs, hr, hp, hz, stepOf, hjm, hreply, hne, throw, throwThe,
          MonadExceptOf.throw, pure, Except.pure, bind, Except.bind]
  · intro heq
    rcases hp with hp | hp
    · simp [initConn, hs, hr, hp, stepOf, hjm, hreply, heq, throw, throwThe,
        MonadExceptOf.throw, pure, Except.pure, bind, Except.bind]
    · by_cases hz : pageSize = 0 <;>
        simp [initConn, hs, hr, hp, hz, stepOf, hjm, hreply, heq, throw, throwThe,
          MonadExceptOf.throw, pure, Except.pure, bind, Except.bind]

/-- Concrete options for the C6 witness: request `wal`. -/
def initConnOptsW : InitConnOpts :=
  { SetSynchronous := 0, SetJournalMode := "wal", SetLockingMode := "",
    MmapSizeOk := false, MmapSize := 0, CacheSize := ⟨false, 0⟩ }

/-- Concrete engine for the C6 witness: every statement succeeds but the
`journal_mode` pragma comes back as `delete`. -/
def connEngineW : ConnEngine :=
  { synchronousErr := none, recursiveTriggersErr := none, pageSizeErr := none,
    journalModeReply := fun _ => .ok "delete", lockingErr := none,
    mmapErr := none, cacheSizeErr := none }

/-- Witness for C6: requesting `wal` while the engine answers `delete`
makes `initConn` fail with `unexpectedJournalMode "delete"`. -/
theorem initConn_journal_mode_verify_witness :
    initConn initConnOptsW connEngineW 0 = .error (.unexpectedJournalMode "delete") :=
  (initConn_journal_mode_verify initConnOptsW connEngineW 0 "delete"
    (by rfl) (by rfl) (Or.inl rfl) (by decide) (by rfl)).1 (by decide)

/-! ## Access accounting (`accessedKey`, claim C8) -/

/-- The columns of `keys` that `accessedKey` touches. -/
structure AccessKeysRow where
  key_id : Int
  last_used : Int
  access_count : Int
deriving DecidableEq, Repr

/-- The effect of the `update keys set last_used=..., access_count=...
where key_id=?` statement when the engine executes it: every row whose
`key_id` matches gets `last_used` set to the current wall clock in integer
milliseconds (`cast(unixepoch('subsec')*1e3 as integer)`, passed in as
`nowMs`) and `access_count` incremented by one. -/
def accessedKeyUpdate (rows : List AccessKeysRow) (keyId nowMs : Int) :
    List AccessKeysRow :=
  rows.map fun r =>
    if r.key_id = keyId then
      { r with last_used := nowMs, access_count := r.access_count + 1 }
    else r

/-- `accessedKey(keyId, ignoreBusy)`: run the update; if it fails and
`ignoreBusy` is set and the result code is BUSY, drop the error.
`engineRes` is the engine-level outcome of the update statement (`none`
when it executes). -/
def accessedKey (rows : List AccessKeysRow) (keyId nowMs : Int)
    (engineRes : Option GoErr) (ignoreBusy : Bool) :
    Except GoErr (List AccessKeysRow) :=
  match engineRes with
  | none => .ok (accessedKeyUpdate rows keyId nowMs)
  | some e => if ignoreBusy ∧ e = .busy then .ok rows else .error e

/-- C8: when the update fails with the engine's BUSY result code,
`accessedKey` succeeds silently if `ignoreBusy` is set and returns the BUSY
error if it is not; when the update executes, every row of the addressed
`key_id` gets `last_used` set to the current wall clock in integer
milliseconds and `access_count` incremented by one. -/
theorem accessedKey_busy_and_update (rows : List AccessKeysRow)
    (keyId nowMs : Int) (engineRes : Option GoErr) (ignoreBusy : Bool) :
    (engineRes = some .busy → ignoreBusy = true →
      accessedKey rows keyId nowMs engineRes ignoreBusy = .ok rows) ∧
    (engineRes = some .busy → ignoreBusy = false →
      accessedKey rows keyId nowMs engineRes ignoreBusy = .error .busy) ∧
    (engineRes = none →
      accessedKey rows keyId nowMs engineRes ignoreBusy =
        .ok (rows.map fun r =>
          if r.key_id = keyId then
            { r with last_used := nowMs, access_count := r.access_count + 1 }
          else r)) := by
  refine ⟨?_, ?_, ?_⟩
  · intro he hib
    simp [accessedKey, he, hib]
  · intro he hib
    simp [accessedKey, he, hib]
  · intro he
    simp [accessedKey, he, accessedKeyUpdate]

/-- Witness for C8: on a one-row table with `key_id = 1`, a successful
update at 999 ms bumps the row, and a BUSY failure with `ignoreBusy` set
returns success with the table untouched. -/
theorem accessedKey_busy_and_update_witness :
    accessedKey [⟨1, 10, 2⟩] 1 999 none true = .ok [⟨1, 999, 3⟩] ∧
    accessedKey [⟨1, 10, 2⟩] 1 999 (some .busy) true = .ok [⟨1, 10, 2⟩] :=
  ⟨(accessedKey_busy_and_update [⟨1, 10, 2⟩] 1 999 none true).2.2 rfl,
   (accessedKey_busy_and_update [⟨1, 10, 2⟩] 1 999 (some .busy) true).1 rfl rfl⟩

/-! ## Key and chunk creation (`openKey`, `createKey`, claims C3, C4, C10) -/

/-- A row of the `keys` table (the columns `createKey`/`openKey` touch). -/
structure KeysRow where
  key_id : Int
  key : String
  length : Int
deriving DecidableEq, Repr

/-- A row of the `blobs` table; `size` is `length(blob)`.  A blob inserted
by `createKey` is `zeroblob(size)`. -/
structure BlobsRow where
  blob_id : Int
  size : Int
deriving DecidableEq, Repr

/-- A row of the `values` table. -/
structure ValuesRow where
  value_id : Int
  offset : Int
  blob_id : Int
deriving DecidableEq, Repr

/-- The tables `createKey` touches, plus the rowid counters the engine
uses to assign `key_id` (rowid of `keys`) and `blob_id` (rowid of `blobs`,
read back through `LastInsertRowID`). -/
structure CrudDb where
  keys : List KeysRow
  blobs : List BlobsRow
  values : List ValuesRow
  nextKeyId : Int
  nextBlobId : Int
deriving DecidableEq, Repr

/-- The `(key_id, length)` pair `openKey` selects. -/
structure KeyCols where
  id : Int
  length : Int
deriving DecidableEq, Repr

/-- Outcome of a query helper: a value, a Go error, or a fault — the
`panic` that `sqliteQueryRow`/`sqliteQueryMustOneRow` raise when a query
expected to return at most (or exactly) one row does not. -/
inductive QueryOut (α : Type) where
  | ok (a : α)
  | error (e : GoErr)
  | fault (msg : String)
deriving DecidableEq, Repr

/-- `CreateOpts` as used by `createKey`. -/
structure CreateOpts where
  Length : Int
deriving DecidableEq, Repr

/-- `openKey`: `select key_id, length from keys where key=?` through
`sqliteQueryRow`, which panics on more than one row; no row becomes
`ErrNotFound`. -/
def openKey (db : CrudDb) (key : String) : QueryOut KeyCols :=
  match db.keys.filter (fun r => decide (r.key = key)) with
  | [] => .error .notFound
  | [r] => .ok ⟨r.key_id, r.length⟩
  | _ => .fault "got more than one row"

/-- The chunk-insertion loop of `createKey`: starting at `off`, while
`off < L` insert `zeroblob(min m (L - off))` into `blobs` and a matching
`values` row for the freshly assigned `blob_id`, then step `off` by `m`
(the connection's `maxBlobSize`).  The `0 < m` conjunct renders the Go
loop's divergence for a non-positive `maxBlobSize` as a no-op; every
claim instantiates `m` positive.  The inserts are modelled as infallible:
the Go code panics if the engine rejects one. -/
def createChunks (m keyId L : Int) (db : CrudDb) (off : Int) : CrudDb :=
  if h : off < L ∧ 0 < m then
    let blobSize := min m (L - off)
    let blobId := db.nextBlobId
    let db1 : CrudDb :=
      { db with
        blobs := db.blobs ++ [⟨blobId, blobSize⟩],
        values := db.values ++ [⟨keyId, off, blobId⟩],
        nextBlobId := blobId + 1 }
    createChunks m keyId L db1 (off + m)
  else db
termination_by (L - off).toNat
decreasing_by simp_wf; omega

/-- The offsets the chunk loop visits: `off, off + m, off + 2m, …`, all
strictly below `L` (empty unless `0 < m`). -/
def chunkOffsets (m L off : Int) : List Int :=
  if h : off < L ∧ 0 < m then off :: chunkOffsets m L (off + m) else []
termination_by (L - off).toNat
decreasing_by simp_wf; omega

/-- The `blobs` rows the chunk loop inserts, starting from rowid
`nextId`. -/
def blobsFor (nextId m L off : Int) : List BlobsRow :=
  if h : off < L ∧ 0 < m then
    ⟨nextId, min m (L - off)⟩ :: blobsFor (nextId + 1) m L (off + m)
  else []
termination_by (L - off).toNat
decreasing_by simp_wf; omega

/-- The `values` rows the chunk loop inserts, starting from rowid
`nextId`. -/
def valuesFor (nextId keyId m L off : Int) : List ValuesRow :=
  if h : off < L ∧ 0 < m then
    ⟨keyId, off, nextId⟩ :: valuesFor (nextId + 1) keyId m L (off + m)
  else []
termination_by (L - off).toNat
decreasing_by simp_wf; omega

/-- `createKey(key, create)`: return the existing id when `openKey` does
not fail with `ErrNotFound`; otherwise insert the `keys` row (reading the
new `key_id` back through `returning`) and run the chunk loop from offset
zero. -/
def createKey (m : Int) (db : CrudDb) (key : String) (create : CreateOpts) :
    QueryOut (CrudDb × Int) :=
  match openKey db key with
  | .ok cols => .ok (db, cols.id)
  | .fault msg => .fault msg
  | .error e =>
    if e = .notFound then
      let keyId := db.nextKeyId
      let db1 : CrudDb :=
        { db with
          keys := db.keys ++ [⟨keyId, key, create.Length⟩],
          nextKeyId := db.nextKeyId + 1 }
      .ok (createChunks m keyId create.Length db1 0, keyId)
    else .error e

theorem createChunks_eq (m keyId L : Int) : ∀ (off : Int) (db : CrudDb),
    createChunks m keyId L db off =
      { db with
        blobs := db.blobs ++ blobsFor db.nextBlobId m L off,
        values := db.values ++ valuesFor db.nextBlobId keyId m L off,
        nextBlobId := db.nextBlobId + ((chunkOffsets m L off).length : Int) } := by
  have key : ∀ (n : Nat) (off : Int) (db : CrudDb), (L - off).toNat = n →
      createChunks m keyId L db off =
        { db with
          blobs := db.blobs ++ blobsFor db.nextBlobId m L off,
          values := db.values ++ valuesFor db.nextBlobId keyId m L off,
          nextBlobId := db.nextBlobId + ((chunkOffsets m L off).length : Int) } := by
    intro n
    induction n using Nat.strong_induction_on with
    | _ n ih =>
      intro off db hn
      by_cases hcond : off < L ∧ 0 < m
      · rw [createChunks, chunkOffsets, blobsFor, valuesFor,
          dif_pos hcond, dif_pos hcond, dif_pos hcond, dif_pos hcond]
        rw [ih ((L - (off + m)).toNat) (by omega) (off + m) _ rfl]
        simp [CrudDb.mk.injEq, List.append_assoc]
        omega
      · rw [createChunks, chunkOffsets, blobsFor, valuesFor,
          dif_neg hcond, dif_neg hcond, dif_neg hcond, dif_neg hcond]
        simp
  exact fun off db => key ((L - off).toNat) off db rfl

theorem createChunks_keys (m keyId L off : Int) (db : CrudDb) :
    (createChunks m keyId L db off).keys = db.keys := by
  rw [createChunks_eq]

theorem chunkOffsets_length (m L : Int) (hm : 0 < m) : ∀ (off : Int),
    (chunkOffsets m L off).length = ((L - off).toNat + m.toNat - 1) / m.toNat := by
  have key : ∀ (n : Nat) (off : Int), (L - off).toNat = n →
      (chunkOffsets m L off).length = ((L - off).toNat + m.toNat - 1) / m.toNat := by
    intro n
    induction n using Nat.strong_induction_on with
    | _ n ih =>
      intro off hn
      by_cases hcond : off < L ∧ 0 < m
      · rw [chunkOffsets, dif_pos hcond]
        rw [List.length_cons, ih ((L - (off + m)).toNat) (by omega) (off + m) rfl]
        have hb : 0 < m.toNat := by omega
        by_cases hab : (L - off).toNat ≤ m.toNat
        · have h1 : (L - (off + m)).toNat = 0 := by omega
          rw [h1]
          have h2 : (0 + m.toNat - 1) / m.toNat = 0 :=
            Nat.div_eq_of_lt (by omega)
          rw [h2]
          have h3 : ((L - off).toNat + m.toNat - 1) / m.toNat = 1 := by
            apply Nat.div_eq_of_lt_le <;> omega
          omega
        · have h1 : (L - (off + m)).toNat = (L - off).toNat - m.toNat := by omega
          rw [h1]
          have h2 : (L - off).toNat - m.toNat + m.toNat - 1 = (L - off).toNat - 1 := by
            omega
          have h3 : (L - off).toNat + m.toNat - 1 = ((L - off).toNat - 1) + m.toNat := by
            omega
          rw [h2, h3, Nat.add_div_right _ hb]
      · rw [chunkOffsets, dif_neg hcond]
        have hoffL : ¬ off < L := fun hlt => hcond ⟨hlt, hm⟩
        have h1 : (L - off).toNat = 0 := by omega
        rw [h1]
        exact (Nat.div_eq_of_lt (by omega)).symm
  exact fun off => key ((L - off).toNat) off rfl

theorem chunkOffsets_eq_range (m L : Int) : ∀ (off : Int),
    chunkOffsets m L off =
      (List.range (chunkOffsets m L off).length).map fun i : Nat => off + (i : Int) * m := by
  have key : ∀ (n : Nat) (off : Int), (L - off).toNat = n →
      chunkOffsets m L off =
        (List.range (chunkOffsets m L off).length).map fun i : Nat => off + (i : Int) * m := by
    intro n
    induction n using Nat.strong_induction_on with
    | _ n ih =>
      intro off hn
      by_cases hcond : off < L ∧ 0 < m
      · rw [chunkOffsets, dif_pos hcond]
        rw [List.length_cons, List.range_succ_eq_map, List.map_cons, List.map_map]
        have hhead : off + ((0 : Nat) : Int) * m = off := by simp
        rw [hhead]
        congr 1
        have hrec := ih ((L - (off + m)).toNat) (by omega) (off + m) rfl
        conv_lhs => rw [hrec]
        apply List.map_congr_left
        intro i _
        simp only [Function.comp]
        push_cast
        ring
      · rw [chunkOffsets, dif_neg hcond]
        rfl
  exact fun off => key ((L - off).toNat) off rfl

theorem chunkOffsets_lt (m L : Int) : ∀ (off o : Int),
    o ∈ chunkOffsets m L off → o < L := by
  have key : ∀ (n : Nat) (off : Int), (L - off).toNat = n → ∀ o : Int,
      o ∈ chunkOffsets m L off → o < L := by
    intro n
    induction n using Nat.strong_induction_on with
    | _ n ih =>
      intro off hn o hmem
      by_cases hcond : off < L ∧ 0 < m
      · rw [chunkOffsets, dif_pos hcond] at hmem
        rcases List.mem_cons.mp hmem with h | h
        · omega
        · exact ih ((L - (off + m)).toNat) (by omega) (off + m) rfl o h
      · rw [chunkOffsets, dif_neg hcond] at hmem
        cases hmem
  exact fun off o h => key ((L - off).toNat) off rfl o h

theorem chunkOffsets_covers (m L : Int) (hm : 0 < m) : ∀ (off : Int),
    L - off ≤ ((chunkOffsets m L off).length : Int) * m := by
  have key : ∀ (n : Nat) (off : Int), (L - off).toNat = n →
      L - off ≤ ((chunkOffsets m L off).length : Int) * m := by
    intro n
    induction n using Nat.strong_induction_on with
    | _ n ih =>
      intro off hn
      by_cases hcond : off < L ∧ 0 < m
      · rw [chunkOffsets, dif_pos hcond]
        have hrec := ih ((L - (off + m)).toNat) (by omega) (off + m) rfl
        rw [List.length_cons]
        push_cast
        push_cast at hrec
        nlinarith [hrec]
      · rw [chunkOffsets, dif_neg hcond]
        simp
        omega
  exact fun off => key ((L - off).toNat) off rfl

theorem blobsFor_sizes (m L : Int) : ∀ (nextId off : Int),
    (blobsFor nextId m L off).map (fun b => b.size) =
      (chunkOffsets m L off).map fun o => min m (L - o) := by
  have key : ∀ (n : Nat) (nextId off : Int), (L - off).toNat = n →
      (blobsFor nextId m L off).map (fun b => b.size) =
        (chunkOffsets m L off).map fun o => min m (L - o) := by
    intro n
    induction n using Nat.strong_induction_on with
    | _ n ih =>
      intro nextId off hn
      by_cases hcond : off < L ∧ 0 < m
      · rw [blobsFor, chunkOffsets, dif_pos hcond, dif_pos hcond]
        rw [List.map_cons, List.map_cons,
          ih ((L - (off + m)).toNat) (by omega) (nextId + 1) (off + m) rfl]
      · rw [blobsFor, chunkOffsets, dif_neg hcond, dif_neg hcond]
        rfl
  exact fun nextId off => key ((L - off).toNat) nextId off rfl

theorem valuesFor_offsets (keyId m L : Int) : ∀ (nextId off : Int),
    (valuesFor nextId keyId m L off).map (fun v => v.offset) =
      chunkOffsets m L off := by
  have key : ∀ (n : Nat) (nextId off : Int), (L - off).toNat = n →
      (valuesFor nextId keyId m L off).map (fun v => v.offset) =
        chunkOffsets m L off := by
    intro n
    induction n using Nat.strong_induction_on with
    | _ n ih =>
      intro nextId off hn
      by_cases hcond : off < L ∧ 0 < m
      · rw [valuesFor, chunkOffsets, dif_pos hcond, dif_pos hcond]
        rw [List.map_cons,
          ih ((L - (off + m)).toNat) (by omega) (nextId + 1) (off + m) rfl]
      · rw [valuesFor, chunkOffsets, dif_neg hcond, dif_neg hcond]
        rfl
  exact fun nextId off => key ((L - off).toNat) nextId off rfl

theorem valuesFor_value_id (keyId m L : Int) : ∀ (nextId off : Int) (v : ValuesRow),
    v ∈ valuesFor nextId keyId m L off → v.value_id = keyId := by
  have key : ∀ (n : Nat) (nextId off : Int), (L - off).toNat = n → ∀ v : ValuesRow,
      v ∈ valuesFor nextId keyId m L off → v.value_id = keyId := by
    intro n
    induction n using Nat.strong_induction_on with
    | _ n ih =>
      intro nextId off hn v hmem
      by_cases hcond : off < L ∧ 0 < m
      · rw [valuesFor, dif_pos hcond] at hmem
        rcases List.mem_cons.mp hmem with h | h
        · rw [h]
        · exact ih ((L - (off + m)).toNat) (by omega) (nextId + 1) (off + m) rfl v h
      · rw [valuesFor, dif_neg hcond] at hmem
        cases hmem
  exact fun nextId off v h => key ((L - off).toNat) nextId off rfl v h

theorem blobsFor_valuesFor_blob_id (keyId m L : Int) : ∀ (nextId off : Int),
    (blobsFor nextId m L off).map (fun b => b.blob_id) =
      (valuesFor nextId keyId m L off).map fun v => v.blob_id := by
  have key : ∀ (n : Nat) (nextId off : Int), (L - off).toNat = n →
      (blobsFor nextId m L off).map (fun b => b.blob_id) =
        (valuesFor nextId keyId m L off).map fun v => v.blob_id := by
    intro n
    induction n using Nat.strong_induction_on with
    | _ n ih =>
      intro nextId off hn
      by_cases hcond : off < L ∧ 0 < m
      · rw [blobsFor, valuesFor, dif_pos hcond, dif_pos hcond]
        rw [List.map_cons, List.map_cons,
          ih ((L - (off + m)).toNat) (by omega) (nextId + 1) (off + m) rfl]
      · rw [blobsFor, valuesFor, dif_neg hcond, dif_neg hcond]
        rfl
  exact fun nextId off => key ((L - off).toNat) nextId off rfl

theorem createKey_existing (m : Int) (db : CrudDb) (key : String)
    (create : CreateOpts) (r : KeysRow)
    (hfilter : db.keys.filter (fun row => decide (row.key = key)) = [r]) :
    createKey m db key create = .ok (db, r.key_id) := by
  unfold createKey openKey
  rw [hfilter]

theorem createKey_fresh (m : Int) (db : CrudDb) (key : String) (create : CreateOpts)
    (habsent : db.keys.filter (fun row => decide (row.key = key)) = []) :
    createKey m db key create =
      .ok ({ db with
          keys := db.keys ++ [⟨db.nextKeyId, key, create.Length⟩],
          blobs := db.blobs ++ blobsFor db.nextBlobId m create.Length 0,
          values := db.values ++ valuesFor db.nextBlobId db.nextKeyId m create.Length 0,
          nextKeyId := db.nextKeyId + 1,
          nextBlobId := db.nextBlobId +
            ((chunkOffsets m create.Length 0).length : Int) },
        db.nextKeyId) := by
  have step : createKey m db key create =
      .ok (createChunks m db.nextKeyId create.Length
        { db with
          keys := db.keys ++ [⟨db.nextKeyId, key, create.Length⟩],
          nextKeyId := db.nextKeyId + 1 } 0, db.nextKeyId) := by
    unfold createKey openKey
    rw [habsent]
    rfl
  rw [step, createChunks_eq]

/-- C3: `createKey` is idempotent.  When a `keys` row for the key already
exists (the lookup returns exactly that row), `createKey` returns its
`key_id` and leaves every table untouched; starting from a database
without the key, running `createKey` twice returns the same `key_id` both
times and the second run leaves the state of the first run unchanged,
adding no `keys`, `blobs` or `values` rows. -/
theorem createKey_idempotent (m : Int) (db : CrudDb) (key : String)
    (create : CreateOpts) :
    (∀ r : KeysRow, db.keys.filter (fun row => decide (row.key = key)) = [r] →
      createKey m db key create = .ok (db, r.key_id)) ∧
    (db.keys.filter (fun row => decide (row.key = key)) = [] →
      ∃ db1 : CrudDb, createKey m db key create = .ok (db1, db.nextKeyId) ∧
        createKey m db1 key create = .ok (db1, db.nextKeyId)) := by
  constructor
  · intro r hfilter
    exact createKey_existing m db key create r hfilter
  · intro hfilter
    refine ⟨_, createKey_fresh m db key create hfilter, ?_⟩
    exact createKey_existing m _ key create ⟨db.nextKeyId, key, create.Length⟩
      (by simp [List.filter_append, hfilter])

/-- Concrete database for the C3 witness: the key `k` already exists with
`key_id` 7. -/
def crudDbW3 : CrudDb := ⟨[⟨7, "k", 3⟩], [], [], 8, 1⟩

/-- Witness for C3: on a database that already holds `k` under `key_id` 7,
`createKey` returns 7 and changes nothing. -/
theorem createKey_idempotent_witness :
    createKey 2 crudDbW3 "k" ⟨3⟩ = .ok (crudDbW3, 7) :=
  (createKey_idempotent 2 crudDbW3 "k" ⟨3⟩).1 ⟨7, "k", 3⟩ (by decide)

/-- C4: for a key not already present and a positive length `L`,
`createKey` inserts one `keys` row and then exactly
`⌈L / maxBlobSize⌉` zero-filled blobs, one for each offset in
`{0, m, 2m, …}` below `L` (`m` the max blob size), each of size
`min m (L - off)`, each with a matching `values` row carrying the new
`key_id`, the chunk offset, and the new blob's rowid. -/
theorem createKey_fresh_chunked (m : Int) (db : CrudDb) (key : String) (L : Int)
    (hm : 0 < m)
    (habsent : db.keys.filter (fun row => decide (row.key = key)) = [])
    (hL : 0 < L) :
    createKey m db key ⟨L⟩ =
      .ok ({ db with
          keys := db.keys ++ [⟨db.nextKeyId, key, L⟩],
          blobs := db.blobs ++ blobsFor db.nextBlobId m L 0,
          values := db.values ++ valuesFor db.nextBlobId db.nextKeyId m L 0,
          nextKeyId := db.nextKeyId + 1,
          nextBlobId := db.nextBlobId + ((chunkOffsets m L 0).length : Int) },
        db.nextKeyId) ∧
    (blobsFor db.nextBlobId m L 0).length = (L.toNat + m.toNat - 1) / m.toNat ∧
    chunkOffsets m L 0 =
      (List.range ((L.toNat + m.toNat - 1) / m.toNat)).map
        (fun i : Nat => (i : Int) * m) ∧
    (blobsFor db.nextBlobId m L 0).map (fun b => b.size) =
      (chunkOffsets m L 0).map (fun o => min m (L - o)) ∧
    (valuesFor db.nextBlobId db.nextKeyId m L 0).map (fun v => v.offset) =
      chunkOffsets m L 0 ∧
    (∀ v ∈ valuesFor db.nextBlobId db.nextKeyId m L 0,
      v.value_id = db.nextKeyId) ∧
    (blobsFor db.nextBlobId m L 0).map (fun b => b.blob_id) =
      (valuesFor db.nextBlobId db.nextKeyId m L 0).map (fun v => v.blob_id) ∧
    (∀ o ∈ chunkOffsets m L 0, o < L) ∧
    L ≤ ((chunkOffsets m L 0).length : Int) * m := by
  have hlenOff : (chunkOffsets m L 0).length = (L.toNat + m.toNat - 1) / m.toNat := by
    have h := chunkOffsets_length m L hm 0
    simpa using h
  have hlenBlobs : (blobsFor db.nextBlobId m L 0).length = (chunkOffsets m L 0).length := by
    have h := congrArg List.length (blobsFor_sizes m L db.nextBlobId 0)
    simpa using h
  refine ⟨createKey_fresh m db key ⟨L⟩ habsent, ?_, ?_, ?_, ?_, ?_, ?_, ?_, ?_⟩
  · rw [hlenBlobs, hlenOff]
  · have h := chunkOffsets_eq_range m L 0
    rw [hlenOff] at h
    rw [h]
    apply List.map_congr_left
    intro i _
    simp
  · exact blobsFor_sizes m L db.nextBlobId 0
  · exact valuesFor_offsets db.nextKeyId m L db.nextBlobId 0
  · exact fun v hv => valuesFor_value_id db.nextKeyId m L db.nextBlobId 0 v hv
  · exact blobsFor_valuesFor_blob_id db.nextKeyId m L db.nextBlobId 0
  · exact fun o ho => chunkOffsets_lt m L 0 o ho
  · have h := chunkOffsets_covers m L hm 0
    simpa using h

/-- Concrete empty database for the C4 witness. -/
def crudDbW4 : CrudDb := ⟨[], [], [], 1, 1⟩

/-- Witness for C4: with `maxBlobSize` 2 and length 5 on an empty
database, `createKey` makes one `keys` row and three chunks — blobs of
sizes 2, 2, 1 at offsets 0, 2, 4 with matching `values` rows — and the
blob rowid counter advances by `⌈5 / 2⌉ = 3`. -/
theorem createKey_fresh_chunked_witness :
    createKey 2 crudDbW4 "k" ⟨5⟩ =
      .ok (⟨[⟨1, "k", 5⟩], [⟨1, 2⟩, ⟨2, 2⟩, ⟨3, 1⟩],
        [⟨1, 0, 1⟩, ⟨1, 2, 2⟩, ⟨1, 4, 3⟩], 2, 4⟩, 1) :=
  ((createKey_fresh_chunked 2 crudDbW4 "k" 5 (by decide) (by rfl) (by decide)).1).trans
    (by simp [crudDbW4, blobsFor, valuesFor, chunkOffsets])

/-- C10: for a key not already present and a non-positive length,
`createKey` inserts exactly one `keys` row carrying the given length,
inserts no `blobs` rows and no `values` rows, and returns the new
`key_id`. -/
theorem createKey_fresh_nonpositive (m : Int) (db : CrudDb) (key : String)
    (L : Int)
    (habsent : db.keys.filter (fun row => decide (row.key = key)) = [])
    (hL : L ≤ 0) :
    createKey m db key ⟨L⟩ =
      .ok ({ db with
          keys := db.keys ++ [⟨db.nextKeyId, key, L⟩],
          nextKeyId := db.nextKeyId + 1 }, db.nextKeyId) := by
  have h := createKey_fresh m db key ⟨L⟩ habsent
  have hguard : ¬ ((0 : Int) < L ∧ 0 < m) := fun hc => by omega
  rw [blobsFor, dif_neg hguard, valuesFor, dif_neg hguard,
    chunkOffsets, dif_neg hguard] at h
  simpa using h

/-- Concrete database for the C10 witness. -/
def crudDbW10 : CrudDb := ⟨[⟨3, "other", 1⟩], [⟨5, 1⟩], [⟨3, 0, 5⟩], 4, 6⟩

/-- Witness for C10: creating a fresh key of length 0 adds one `keys` row
and nothing else. -/
theorem createKey_fresh_nonpositive_witness :
    createKey 2 crudDbW10 "k" ⟨0⟩ =
      .ok ({ crudDbW10 with
          keys := crudDbW10.keys ++ [⟨crudDbW10.nextKeyId, "k", 0⟩],
          nextKeyId := crudDbW10.nextKeyId + 1 }, crudDbW10.nextKeyId) :=
  createKey_fresh_nonpositive 2 crudDbW10 "k" 0 (by decide) (by decide)

/-! ## Pinned blob handles (`PinnedBlob.Reopen`, claims C5 and C9) -/

/-- The state of the single sqlite blob handle a `PinnedBlob` wraps:
either targeted at the rowid of a `keys` row, or aborted (after a failed
`sqlite.Blob.Reopen`). -/
inductive BlobHandle where
  | targeted (rowid : Int)
  | aborted
deriving DecidableEq, Repr

/-- `rowidForBlob(conn, name)` returning `(rowid, length, ok, err)`.
Modelled from the spec: the function is not under src/; per spec section
4.5 it looks up the `(rowid, length)` of the key row named `name`, with
`ok = false` (and no error) when the key is absent.  `engineErr` injects a
database error from the lookup query itself. -/
def rowidForBlob (keys : List KeysRow) (name : String)
    (engineErr : Option GoErr) : Int × Int × Bool × Option GoErr :=
  match engineErr with
  | some e => (0, 0, false, some e)
  | none =>
    match keys.filter (fun r => decide (r.key = name)) with
    | [] => (0, 0, false, none)
    | r :: _ => (r.key_id, r.length, true, none)

/-- `PinnedBlob.Reopen(name)`: look up the rowid for `name`; on a lookup
error return it (the handle remains on the existing row, per the source
comment); when the name is absent return the fresh
`errors.New ("rowid for name not found")` error; otherwise retarget the
handle with `sqlite.Blob.Reopen`, whose failure (`reopenErr`) leaves the
handle aborted.  Returns the Go error and the resulting handle state. -/
def pinnedReopen (keys : List KeysRow) (name : String)
    (lookupErr : Option GoErr) (reopenErr : Option GoErr) (h : BlobHandle) :
    Option GoErr × BlobHandle :=
  match rowidForBlob keys name lookupErr with
  | (rid, _, okb, errv) =>
    match errv with
    | some e => (some e, h)
    | none =>
      if okb then
        match reopenErr with
        | none => (none, .targeted rid)
        | some e => (some e, .aborted)
      else (some .rowidForNameNotFound, h)

/-- Counterexample to C5 as stated: reopening a pinned handle on a missing
key does return an error and leaves the handle untouched, but the error is
the fresh `rowid for name not found` error, not the `ErrNotFound`
sentinel that key lookup (`openKey`) on a missing key produces. -/
theorem pinnedReopen_missing_error_is_not_notFound :
    pinnedReopen [] "missing" none none (.targeted 7) =
      (some .rowidForNameNotFound, .targeted 7) ∧
    ¬ (pinnedReopen [] "missing" none none (.targeted 7)).1 =
      some GoErr.notFound ∧
    openKey ⟨[], [], [], 1, 1⟩ "missing" = .error GoErr.notFound := by
  refine ⟨rfl, ?_, rfl⟩
  intro hcontra
  simp [pinnedReopen, rowidForBlob] at hcontra

/-- C5 as amended: for every pinned handle and key name with no `keys` row
(and no engine error from the lookup), `Reopen` returns the dedicated
`rowid for name not found` error — a distinct error value from the
`ErrNotFound` sentinel that key lookup produces — and the underlying blob
handle is left exactly as it was, not retargeted. -/
theorem pinnedReopen_missing_key (keys : List KeysRow) (name : String)
    (reopenErr : Option GoErr) (h : BlobHandle)
    (habsent : keys.filter (fun r => decide (r.key = name)) = []) :
    pinnedReopen keys name none reopenErr h = (some .rowidForNameNotFound, h) ∧
    ¬ (GoErr.rowidForNameNotFound = GoErr.notFound) := by
  constructor
  · unfold pinnedReopen rowidForBlob
    rw [habsent]
    rfl
  · intro hcontra
    cases hcontra

/-- Witness for the amended C5: one existing key `x`; reopening on the
missing name `y` yields the dedicated error and the handle still targets
row 7. -/
theorem pinnedReopen_missing_key_witness :
    pinnedReopen [⟨1, "x", 9⟩] "y" none none (.targeted 7) =
      (some .rowidForNameNotFound, .targeted 7) :=
  (pinnedReopen_missing_key [⟨1, "x", 9⟩] "y" none (.targeted 7) (by decide)).1

/-- C9: `Reopen` is atomic with respect to lookup failures.  When the
rowid lookup itself returns a database error, `Reopen` returns that error
and the handle remains targeted at its previous row; and the aborted state
can only arise from a failure of the final retarget step — if the handle
comes out aborted without having gone in aborted, then the lookup
succeeded (no error, a row was found) and `sqlite.Blob.Reopen` failed. -/
theorem pinnedReopen_lookup_error_atomic (keys : List KeysRow) (name : String)
    (reopenErr : Option GoErr) (r : Int) (e : GoErr) :
    pinnedReopen keys name (some e) reopenErr (.targeted r) =
      (some e, .targeted r) ∧
    (∀ (lookupErr : Option GoErr) (h : BlobHandle),
      (pinnedReopen keys name lookupErr reopenErr h).2 = .aborted →
      ¬ h = .aborted →
      lookupErr = none ∧
      (∃ row rest, keys.filter (fun kr => decide (kr.key = name)) = row :: rest) ∧
      ∃ e2, reopenErr = some e2) := by
  constructor
  · rfl
  · intro lookupErr h habort hne
    cases lookupErr with
    | some e1 =>
      simp [pinnedReopen, rowidForBlob] at habort
      exact absurd habort hne
    | none =>
      cases hfilter : keys.filter (fun kr => decide (kr.key = name)) with
      | nil =>
        unfold pinnedReopen rowidForBlob at habort
        rw [hfilter] at habort
        exact absurd habort hne
      | cons row rest =>
        unfold pinnedReopen rowidForBlob at habort
        rw [hfilter] at habort
        cases reopenErr with
        | none => cases habort
        | some e2 => exact ⟨rfl, ⟨row, rest, rfl⟩, e2, rfl⟩

/-- Witness for C9: with a database error injected into the lookup, the
handle stays on row 3 and the error is passed through; and a concrete
aborted outcome exhibits the second conjunct. -/
theorem pinnedReopen_lookup_error_atomic_witness :
    pinnedReopen [⟨1, "k", 5⟩] "k" (some .busy) (some .busy) (.targeted 3) =
      (some .busy, .targeted 3) ∧
    ((none : Option GoErr) = none ∧
      (∃ row rest, ([⟨1, "k", 5⟩] : List KeysRow).filter
        (fun kr => decide (kr.key = "k")) = row :: rest) ∧
      ∃ e2, (some GoErr.busy : Option GoErr) = some e2) :=
  ⟨(pinnedReopen_lookup_error_atomic [⟨1, "k", 5⟩] "k" (some .busy) 3 .busy).1,
   (pinnedReopen_lookup_error_atomic [⟨1, "k", 5⟩] "k" (some .busy) 3 .busy).2
     none (.targeted 3) (by decide) (by decide)⟩

/-! ## Blob-handle cache and extent iteration (`iterBlobs`, claims C2 and C7) -/

/-- The key of the in-memory blob-handle map: `valueKey{keyId, offset}`.
The type is declared outside src/; its ordering is modelled from the spec
(sections 4.4 and 9): an ordered map keyed by `(value_id, offset)`,
compared lexicographically. -/
structure ValueKey where
  keyId : Int
  offset : Int
deriving DecidableEq, Repr

/-- Boolean lexicographic order on `ValueKey` (less-or-equal). -/
def ValueKey.leb (a b : ValueKey) : Bool :=
  decide (a.keyId < b.keyId) ||
    (decide (a.keyId = b.keyId) && decide (a.offset ≤ b.offset))

/-- Boolean lexicographic order on `ValueKey` (strictly-less). -/
def ValueKey.ltb (a b : ValueKey) : Bool :=
  decide (a.keyId < b.keyId) ||
    (decide (a.keyId = b.keyId) && decide (a.offset < b.offset))

/-- An open sqlite blob handle: the `blobs` rowid it points at and its
payload size (`handle.Size()`). -/
structure Blob where
  rowid : Int
  size : Int
deriving DecidableEq, Repr

/-- The contents of the per-connection btree map `conn.blobs`, listed in
ascending key order (the btree's iteration order). -/
abbrev Blobs : Type := List (ValueKey × Blob)

/-- A row of the query `select offset, blob_id from "values" join blobs
using (blob_id) where value_id=? and offset+length(blob) > ?`:
the joined table row, with `blobLen` standing for `length(blob)`. -/
structure DbRow where
  value_id : Int
  offset : Int
  blob_id : Int
  blobLen : Int
deriving DecidableEq, Repr

/-- `conn.openBlob(blobId, write)`: modelled as infallibly producing a
handle on the blob row, whose size is the row's `length(blob)`; the
write-mode flag does not change what the model observes. -/
def openBlob (blobId blobLen : Int) (write : Bool) : Blob :=
  ⟨blobId, blobLen⟩

/-- Insertion into the ordered map at the sorted position. -/
def insortBlob (k : ValueKey) (b : Blob) : List (ValueKey × Blob) → List (ValueKey × Blob)
  | [] => [(k, b)]
  | e :: rest =>
    if ValueKey.leb k e.1 then (k, b) :: e :: rest else e :: insortBlob k b rest

/-- `conn.blobs.Upsert(key, blob)`, returning the new map contents and
whether an existing entry was replaced. -/
def upsertBlob (bl : Blobs) (k : ValueKey) (b : Blob) : Blobs × Bool :=
  if bl.any fun e => decide (e.1 = k) then
    (bl.map fun e => if e.1 = k then (k, b) else e, true)
  else (insortBlob k b bl, false)

/-- The iterator position `iterBlobs` starts its cache scan from, as the
source computes it: `SeekGE ⟨valueId, startOffset + 1⟩` (first entry with
key at least the target, in ascending order), then `Prev` if the seek
landed on an entry (`Prev` on the first entry invalidates the iterator),
else `Last` (which is invalid only on an empty map).  `none` is the
invalid iterator. -/
def seekStartSrc (bl : Blobs) (valueId startOffset : Int) : Option Nat :=
  let p0 := List.findIdx (fun e => ValueKey.leb ⟨valueId, startOffset + 1⟩ e.1) bl
  if p0 < bl.length then
    if p0 = 0 then none else some (p0 - 1)
  else if bl.length = 0 then none else some (bl.length - 1)

/-- The same starting position as the claim words it: seek to the first
key strictly greater than `(value_id, startOffset)` and step back one
entry; if no greater key exists, move to the last entry. -/
def seekStartSpec (bl : Blobs) (valueId startOffset : Int) : Option Nat :=
  let p0 := List.findIdx (fun e => ValueKey.ltb ⟨valueId, startOffset⟩ e.1) bl
  if p0 < bl.length then
    if p0 = 0 then none else some (p0 - 1)
  else if bl.length = 0 then none else some (bl.length - 1)

/-- The cache-scan loop of `iterBlobs`: while the iterator is valid and
still on `valueId`, compute `blobEnd = offset + handle.Size()`; when
`blobEnd > startOffset` invoke the callback, returning early (`Sum.inl`,
carrying the callback state and the error, if any) when it reports an
error or `more = false`, and otherwise continue from `startOffset =
blobEnd`; on normal exit fall through (`Sum.inr`) with the state and the
final `startOffset`. -/
def cachePhase {σ : Type} (valueId : Int)
    (cb : σ → Int → Blob → σ × Bool × Option GoErr)
    (bl : Blobs) (s : σ) (pos : Option Nat) (startOffset : Int) :
    (σ × Option GoErr) ⊕ (σ × Int) :=
  match pos with
  | none => .inr (s, startOffset)
  | some i =>
    if hvalid : i < bl.length then
      let e := bl.get ⟨i, hvalid⟩
      if e.1.keyId = valueId then
        let blobEnd := e.1.offset + e.2.size
        if blobEnd > startOffset then
          let c := cb s e.1.offset e.2
          if c.2.2 = none ∧ c.2.1 = true then
            cachePhase valueId cb bl c.1 (some (i + 1)) blobEnd
          else .inl (c.1, c.2.2)
        else cachePhase valueId cb bl s (some (i + 1)) startOffset
      else .inr (s, startOffset)
    else .inr (s, startOffset)
termination_by bl.length - pos.getD bl.length
decreasing_by
  all_goals simp_wf
  all_goals omega

/-- Sorted insertion by `offset` (for `order by offset`). -/
def insertByOffset (r : DbRow) : List DbRow → List DbRow
  | [] => [r]
  | x :: xs =>
    if decide (r.offset ≤ x.offset) then r :: x :: xs else x :: insertByOffset r xs

/-- Insertion sort by `offset` (for `order by offset`). -/
def sortByOffset : List DbRow → List DbRow
  | [] => []
  | x :: xs => insertByOffset x (sortByOffset xs)

/-- The rows the database query of `iterBlobs` yields: those with
`value_id = ?` and `offset + length(blob) > startOffset`, ordered by
`offset`. -/
def queryRows (rows : List DbRow) (valueId startOffset : Int) : List DbRow :=
  sortByOffset (rows.filter fun r =>
    decide (r.value_id = valueId) && decide (r.offset + r.blobLen > startOffset))

/-- Outcome of `iterBlobs`: normal return or error return (each carrying
the final map contents and callback state), or a fault — the `panic(key)`
raised when the upsert into the map replaced an existing entry. -/
inductive IterOut (σ : Type) where
  | ok (blobs : Blobs) (s : σ)
  | err (blobs : Blobs) (s : σ) (e : GoErr)
  | fault (k : ValueKey)

/-- The database phase of `iterBlobs`: for each queried row (skipping the
rest once `more` is false), open a blob handle, upsert it into the map —
panicking on a replacement — then invoke the callback; a callback error
aborts the query and is returned. -/
def queryPhase {σ : Type} (valueId : Int)
    (cb : σ → Int → Blob → σ × Bool × Option GoErr) (write : Bool)
    (rows : List DbRow) (bl : Blobs) (s : σ) (more : Bool) : IterOut σ :=
  match rows with
  | [] => .ok bl s
  | r :: rest =>
    if more then
      let blob := openBlob r.blob_id r.blobLen write
      let k : ValueKey := ⟨valueId, r.offset⟩
      let u := upsertBlob bl k blob
      if u.2 then .fault k
      else
        let c := cb s r.offset blob
        match c.2.2 with
        | some e => .err u.1 c.1 e
        | none => queryPhase valueId cb write rest u.1 c.1 c.2.1
    else queryPhase valueId cb write rest bl s more

/-- `conn.iterBlobs(valueId, iter, write, startOffset)` as the source
computes it: seek the cache with `SeekGE ⟨valueId, startOffset + 1⟩` and
step back (`seekStartSrc`), run the cache-scan loop, then — unless the
loop returned early — query the database for the remaining extent
(starting from the updated `startOffset`) and run the row callback over
it.  The btree map contents, the joined table rows, and the callback with
its state are explicit parameters. -/
def iterBlobs {σ : Type} (valueId : Int)
    (cb : σ → Int → Blob → σ × Bool × Option GoErr) (write : Bool)
    (bl : Blobs) (rows : List DbRow) (s : σ) (startOffset : Int) : IterOut σ :=
  match cachePhase valueId cb bl s (seekStartSrc bl valueId startOffset) startOffset with
  | .inl (s1, some e) => .err bl s1 e
  | .inl (s1, none) => .ok bl s1
  | .inr (s1, off1) => queryPhase valueId cb write (queryRows rows valueId off1) bl s1 true

/-- `iterBlobs` as claim C2 words it, differing from `iterBlobs` only in
the seek: first key strictly greater than `(value_id, startOffset)`, then
one step back (`seekStartSpec`), rather than the source's
`SeekGE (value_id, startOffset + 1)`.  The remaining steps follow the
claim clause by clause: the same-value cache loop with
`blobEnd = offset + handle.Size()`, callback exactly when
`blobEnd > startOffset`, early stop on `more = false` or error, advancing
`startOffset` to `blobEnd`; then the database query for
`value_id = ? and offset + length(blob) > startOffset` ordered by offset,
invoking the callback on each newly opened handle. -/
def iterBlobsSpec {σ : Type} (valueId : Int)
    (cb : σ → Int → Blob → σ × Bool × Option GoErr) (write : Bool)
    (bl : Blobs) (rows : List DbRow) (s : σ) (startOffset : Int) : IterOut σ :=
  match cachePhase valueId cb bl s (seekStartSpec bl valueId startOffset) startOffset with
  | .inl (s1, some e) => .err bl s1 e
  | .inl (s1, none) => .ok bl s1
  | .inr (s1, off1) => queryPhase valueId cb write (queryRows rows valueId off1) bl s1 true

theorem ValueKey.leb_succ_eq_ltb (v s : Int) (k : ValueKey) :
    ValueKey.leb ⟨v, s + 1⟩ k = ValueKey.ltb ⟨v, s⟩ k := by
  have h : decide (s + 1 ≤ k.offset) = decide (s < k.offset) :=
    decide_eq_decide.mpr Int.add_one_le_iff
  unfold ValueKey.leb ValueKey.ltb
  rw [h]

theorem seekStart_src_eq_spec : @seekStartSrc = @seekStartSpec := by
  funext bl valueId startOffset
  unfold seekStartSrc seekStartSpec
  have h : (fun e : ValueKey × Blob => ValueKey.leb ⟨valueId, startOffset + 1⟩ e.1)
      = fun e : ValueKey × Blob => ValueKey.ltb ⟨valueId, startOffset⟩ e.1 := by
    funext e
    exact ValueKey.leb_succ_eq_ltb valueId startOffset e.1
  rw [h]

/-- C2: `iterBlobs` behaves exactly as the claim describes.  For every
value id, callback, write mode, cache contents, table rows, callback state
and start offset, the source computation — `SeekGE (value_id,
startOffset + 1)` then `Prev`/`Last`, the same-value cache loop with its
`blobEnd > startOffset` test, early returns and `startOffset := blobEnd`
advance, then the `value_id = ? and offset + length(blob) > startOffset
order by offset` query phase — agrees with the claim-worded computation,
whose seek goes to the first key strictly greater than `(value_id,
startOffset)` and steps back one entry (or to the last entry when no
greater key exists). -/
theorem iterBlobs_matches_claim {σ : Type} (valueId : Int)
    (cb : σ → Int → Blob → σ × Bool × Option GoErr) (write : Bool)
    (bl : Blobs) (rows : List DbRow) (s : σ) (startOffset : Int) :
    iterBlobs valueId cb write bl rows s startOffset =
      iterBlobsSpec valueId cb write bl rows s startOffset := by
  unfold iterBlobs iterBlobsSpec
  rw [seekStart_src_eq_spec]

/-- C7: in the database phase of `iterBlobs`, inserting a freshly opened
blob handle never replaces an existing map entry silently: whenever the
row about to be processed collides with a key already present in the map
(so the upsert reports a replacement), the computation faults — the
`panic(key)` — rather than returning `ok` or an error. -/
theorem iterBlobs_duplicate_upsert_faults {σ : Type} (valueId : Int)
    (cb : σ → Int → Blob → σ × Bool × Option GoErr) (write : Bool)
    (r : DbRow) (rest : List DbRow) (bl : Blobs) (s : σ)
    (hmem : (bl.any fun e => decide (e.1 = (⟨valueId, r.offset⟩ : ValueKey))) = true) :
    queryPhase valueId cb write (r :: rest) bl s true =
      .fault ⟨valueId, r.offset⟩ := by
  unfold queryPhase upsertBlob
  simp [hmem]

/-- Concrete callback for the C7 witness: always continue. -/
def cbW : Unit → Int → Blob → Unit × Bool × Option GoErr :=
  fun _ _ _ => ((), true, none)

/-- Concrete map contents for the C7 witness: value 1 already has a cached
handle at offset 0. -/
def blobsW : Blobs := [(⟨1, 0⟩, ⟨5, 4⟩)]

/-- Witness for C7: processing a database row for value 1 at offset 0
while the map already holds `(1, 0)` faults with that key. -/
theorem iterBlobs_duplicate_upsert_faults_witness :
    queryPhase 1 cbW false [⟨1, 0, 9, 4⟩] blobsW () true = .fault ⟨1, 0⟩ :=
  iterBlobs_duplicate_upsert_faults 1 cbW false ⟨1, 0, 9, 4⟩ [] blobsW ()
    (by decide)

end Squirrel
